import Mathlib

/-!
Verification development for the `epub` crate: a shallow embedding of the
streaming block reader (`src/io.rs`), the ZIP local-file-header parser, the
inflate pipeline and the container expander (`src/container.rs`), together
with proofs about the specified properties.

Machine integers are embedded as `Nat` with explicit bounds/mod-2^w where
overflow matters; fallible Rust code returning `Result` is embedded as
`Except EPubErr`.
-/

set_option maxRecDepth 4000

deriving instance DecidableEq for Except

namespace Epub

/-- Embedding of `EPubError` (src/lib.rs) restricted to the variants the
claims touch; `ReadTruncated` appears in src/io.rs. `underflow` models a
Rust `usize` subtraction going below zero (a panic in debug builds, a wrap
in release builds) — the source has no such variant, the constructor marks
the executions on which the source's arithmetic is not a total function. -/
inductive EPubErr where
  | IOErr : EPubErr
  | ReadTruncated : EPubErr
  | InvalidLocalHeader : EPubErr
  | FormatError : String → EPubErr
  | Unimplemented : EPubErr
  | Decompress : Nat → EPubErr
  | FromUTF8 : EPubErr
  | underflow : EPubErr
  | fuel : EPubErr
deriving DecidableEq, Repr

/-! ## Byte-stream layer

`src/container.rs` consumes bytes through the `BufReader` interface
(`read1`/`read2`/`read4`/`peek4`/`read_to_array`), which per spec §4.1
delivers the file's bytes in order, little-endian for the fixed-width
reads, transparently across block boundaries.  For the parser-level claims
we embed that interface over a plain byte stream (`List Nat`, each element
a byte value); the block-buffer machinery itself is embedded separately
below as `BufReader`. -/

/-- Read one byte from the stream. -/
def zread1 : List Nat → Except EPubErr (Nat × List Nat)
  | [] => .error .ReadTruncated
  | b :: r => .ok (b, r)

/-- Read a little-endian `u16` (BufReader::read2). -/
def zread2 : List Nat → Except EPubErr (Nat × List Nat)
  | b0 :: b1 :: r => .ok (b0 + 256 * b1, r)
  | _ => .error .ReadTruncated

/-- Read a little-endian `u32` (BufReader::read4). -/
def zread4 : List Nat → Except EPubErr (Nat × List Nat)
  | b0 :: b1 :: b2 :: b3 :: r =>
      .ok (b0 + 256 * b1 + 65536 * b2 + 16777216 * b3, r)
  | _ => .error .ReadTruncated

/-- Read a little-endian `u32` without consuming it (BufReader::peek4). -/
def zpeek4 (zs : List Nat) : Except EPubErr (Nat × List Nat) :=
  match zread4 zs with
  | .ok (v, _) => .ok (v, zs)
  | .error e => .error e

/-- Modelled from the spec: `read_to_array` is called by
`LocalFileHeader::read` (src/container.rs:113,123) but is absent from
src/io.rs; spec §4.1 specifies `read_bytes(n)` "bounded by a maximum (the
implementation must reject requests above the design's maximum field size,
failing with `TruncatedRead` ...)", the maximum being 256 as in
`BufReader::read` (src/io.rs:187-190); reads running past true EOF fail
with the truncated-read error (spec §4.1). -/
def zreadBytes (n : Nat) (zs : List Nat) : Except EPubErr (List Nat × List Nat) :=
  if n > 256 then .error .ReadTruncated
  else if zs.length < n then .error .ReadTruncated
  else .ok (zs.take n, zs.drop n)

/-- Modelled from the spec: the inflate pipeline's chunk fill
(`read_to_array(&mut input[..n])`, src/container.rs:175, n up to 32768, the
function being absent from src/io.rs): read exactly `n` bytes from the
stream, failing with the truncated-read error past true EOF (spec §4.1,
§4.3). -/
def zreadChunk (n : Nat) (zs : List Nat) : Except EPubErr (List Nat × List Nat) :=
  if zs.length < n then .error .ReadTruncated
  else .ok (zs.take n, zs.drop n)

/-! ## UTF-8 validity (Rust `String::from_utf8`) -/

/-- Is `c` a UTF-8 continuation byte (0x80..=0xBF)? -/
def isCont (c : Nat) : Bool := 0x80 ≤ c && c ≤ 0xBF

/-- UTF-8 validity exactly as Rust's `String::from_utf8` checks it
(rejecting overlong forms, surrogates, and values above U+10FFFF). -/
def validUtf8 : List Nat → Bool
  | [] => true
  | b :: rest =>
    if b ≤ 0x7F then validUtf8 rest
    else if 0xC2 ≤ b && b ≤ 0xDF then
      match rest with
      | c :: r => isCont c && validUtf8 r
      | [] => false
    else if b == 0xE0 then
      match rest with
      | c :: c2 :: r => (0xA0 ≤ c && c ≤ 0xBF) && isCont c2 && validUtf8 r
      | _ => false
    else if (0xE1 ≤ b && b ≤ 0xEC) || b == 0xEE || b == 0xEF then
      match rest with
      | c :: c2 :: r => isCont c && isCont c2 && validUtf8 r
      | _ => false
    else if b == 0xED then
      match rest with
      | c :: c2 :: r => (0x80 ≤ c && c ≤ 0x9F) && isCont c2 && validUtf8 r
      | _ => false
    else if b == 0xF0 then
      match rest with
      | c :: c2 :: c3 :: r =>
          (0x90 ≤ c && c ≤ 0xBF) && isCont c2 && isCont c3 && validUtf8 r
      | _ => false
    else if 0xF1 ≤ b && b ≤ 0xF3 then
      match rest with
      | c :: c2 :: c3 :: r => isCont c && isCont c2 && isCont c3 && validUtf8 r
      | _ => false
    else if b == 0xF4 then
      match rest with
      | c :: c2 :: c3 :: r =>
          (0x80 ≤ c && c ≤ 0x8F) && isCont c2 && isCont c3 && validUtf8 r
      | _ => false
    else false

/-! ## ZIP structures (src/container.rs) -/

/-- Embedding of `ExtraHeader` (src/container.rs:11-14). -/
structure ExtraHeader where
  id : Nat
  data : List Nat
deriving DecidableEq, Repr

/-- Embedding of `DataDescriptor` (src/container.rs:34-38). -/
structure DataDescriptor where
  crc32 : Nat
  compressed_size : Nat
  uncompressed_size : Nat
deriving DecidableEq, Repr

/-- Embedding of `LocalFileHeader` (src/container.rs:18-30); `file_name` is kept as its
raw UTF-8 bytes. -/
structure LocalFileHeader where
  extract_version : Nat
  general_purpose_flag : Nat
  compression_method : Nat
  last_mod_file_time : Nat
  last_mod_file_date : Nat
  crc32 : Nat
  compressed_size : Nat
  uncompressed_size : Nat
  file_name : List Nat
  extra_field : Option (List ExtraHeader)
  data_descriptor : Option DataDescriptor
deriving DecidableEq, Repr

namespace LocalFileHeader

/-- Constant `LOCALHEADERFILESIG` (src/container.rs:71). -/
def LOCALHEADERFILESIG : Nat := 0x04034b50

/-- Embedding of `LocalFileHeader::is_lfh` (src/container.rs:74-76). -/
def is_lfh (sig_byte : Nat) : Bool := sig_byte == LOCALHEADERFILESIG

/-- Embedding of `LocalFileHeader::have_data_descriptor` (src/container.rs:79-81):
`self.general_purpose_flag & (1 << 4) == (1 << 4)`. -/
def have_data_descriptor (h : LocalFileHeader) : Bool :=
  h.general_purpose_flag &&& (1 <<< 4) == (1 <<< 4)

/-- Embedding of `LocalFileHeader::is_file` (src/container.rs:84-86). -/
def is_file (h : LocalFileHeader) : Bool :=
  decide (h.compressed_size > 0) && decide (h.uncompressed_size > 0)

/-- Embedding of `LocalFileHeader::is_dir` (src/container.rs:89-91). -/
def is_dir (h : LocalFileHeader) : Bool :=
  decide (h.compressed_size = 0) && decide (h.uncompressed_size = 0)
    && (h.file_name.reverse.head? == some 47)

end LocalFileHeader

/-- The extra-field loop of `LocalFileHeader::read` (src/container.rs:115-131).
`dl` is `data_left`; the source's `data_left -= data_len + 4` is an
unguarded `usize` subtraction, so the executions on which it would go below
zero are marked with the `underflow` outcome.  The `fuelLeft` argument is
only a structural-recursion bound: the calls below always pass `fuelLeft = dl`,
which the ≥4 decrease of `dl` per iteration never exhausts. -/
def readExtraLoop : Nat → Nat → List Nat → List ExtraHeader →
    Except EPubErr (List ExtraHeader × List Nat)
  | _, 0, zs, acc => .ok (acc, zs)
  | 0, _ + 1, _, _ => .error .fuel
  | fuelLeft + 1, dl + 1, zs, acc => do
    let (id, zs) ← zread2 zs
    let (data_len, zs) ← zread2 zs
    let (data, zs) ← zreadBytes data_len zs
    if dl + 1 < data_len + 4 then .error .underflow
    else readExtraLoop fuelLeft (dl + 1 - (data_len + 4)) zs (acc ++ [⟨id, data⟩])

/-- Embedding of `LocalFileHeader::read` (src/container.rs:94-150) over the byte-stream
layer. -/
def LocalFileHeader.read (zs : List Nat) :
    Except EPubErr (LocalFileHeader × List Nat) := do
  let (sig, zs) ← zread4 zs
  if sig ≠ LocalFileHeader.LOCALHEADERFILESIG then .error .InvalidLocalHeader
  else do
  let (extract_version, zs) ← zread2 zs
  let (general_purpose_flag, zs) ← zread2 zs
  let (compression_method, zs) ← zread2 zs
  let (last_mod_file_time, zs) ← zread2 zs
  let (last_mod_file_date, zs) ← zread2 zs
  let (crc32, zs) ← zread4 zs
  let (compressed_size, zs) ← zread4 zs
  let (uncompressed_size, zs) ← zread4 zs
  let (file_name_length, zs) ← zread2 zs
  let (extra_field_length, zs) ← zread2 zs
  let (v, zs) ← zreadBytes file_name_length zs
  if validUtf8 v then do
    let (extra_field, zs) ←
      if extra_field_length > 0 then do
        let (fieldvec, zs) ← readExtraLoop extra_field_length extra_field_length zs []
        pure (some fieldvec, zs)
      else pure ((none : Option (List ExtraHeader)), zs)
    .ok ({ extract_version, general_purpose_flag, compression_method,
           last_mod_file_time, last_mod_file_date, crc32, compressed_size,
           uncompressed_size, file_name := v, extra_field,
           data_descriptor := none }, zs)
  else .error .FromUTF8

/-! ## Serialization of a local file header

Written from the binary layout the claim (and spec §6) prescribes: 30-byte
little-endian fixed prefix with signature 0x04034b50, then the filename
bytes, then the extra-field records laid out as `[id:2][len:2][payload:len]`
summing exactly to the declared extra-field length.  These definitions are
the spec side of the round-trip claim, to be compared with the parser
embedded from the source. -/

/-- Two little-endian bytes of `n`. -/
def le2 (n : Nat) : List Nat := [n % 256, n / 256 % 256]

/-- Four little-endian bytes of `n`. -/
def le4 (n : Nat) : List Nat :=
  [n % 256, n / 256 % 256, n / 65536 % 256, n / 16777216 % 256]

/-- One serialized extra-field record: `[id:2][len:2][payload:len]`. -/
def serializeExtra (e : ExtraHeader) : List Nat :=
  le2 e.id ++ le2 e.data.length ++ e.data

/-- Serialized extra-field records, concatenated. -/
def serializeExtras : List ExtraHeader → List Nat
  | [] => []
  | e :: l => serializeExtra e ++ serializeExtras l

/-- The declared extra-field length: each record occupies
`4 + payload length` bytes. -/
def extrasLen : List ExtraHeader → Nat
  | [] => 0
  | e :: l => (4 + e.data.length) + extrasLen l

/-- The extra-field length recorded in the fixed prefix. -/
def extraFieldLen (ef : Option (List ExtraHeader)) : Nat :=
  match ef with
  | none => 0
  | some l => extrasLen l

/-- Serialize one local file header per the layout of spec §6. -/
def serializeLFH (h : LocalFileHeader) : List Nat :=
  le4 LocalFileHeader.LOCALHEADERFILESIG ++
  le2 h.extract_version ++ le2 h.general_purpose_flag ++
  le2 h.compression_method ++ le2 h.last_mod_file_time ++
  le2 h.last_mod_file_date ++ le4 h.crc32 ++ le4 h.compressed_size ++
  le4 h.uncompressed_size ++ le2 h.file_name.length ++
  le2 (extraFieldLen h.extra_field) ++ h.file_name ++
  (match h.extra_field with
   | none => []
   | some l => serializeExtras l)

/-- The extra-field records (when present) are non-empty and fit their
wire widths. -/
def extraRecordsOk : Option (List ExtraHeader) → Bool
  | none => true
  | some l =>
      !l.isEmpty && l.all (fun e => decide (e.id < 65536) && decide (e.data.length ≤ 256))

/-- Well-formedness of a header value for the round-trip: every numeric
field fits its wire width, the filename is valid UTF-8 within the bounded
read's maximum, the extra-field records are well-formed per
`extraRecordsOk`, and the data descriptor is not stored in the header
record (the parser always leaves it `none`). -/
def wfLFH (h : LocalFileHeader) : Prop :=
  h.extract_version < 65536 ∧ h.general_purpose_flag < 65536 ∧
  h.compression_method < 65536 ∧ h.last_mod_file_time < 65536 ∧
  h.last_mod_file_date < 65536 ∧ h.crc32 < 4294967296 ∧
  h.compressed_size < 4294967296 ∧ h.uncompressed_size < 4294967296 ∧
  validUtf8 h.file_name = true ∧ h.file_name.length ≤ 256 ∧
  extraFieldLen h.extra_field < 65536 ∧
  extraRecordsOk h.extra_field = true ∧
  h.data_descriptor = none

instance (h : LocalFileHeader) : Decidable (wfLFH h) := by
  unfold wfLFH; infer_instance

/-- The filename step of `LocalFileHeader::read` (src/container.rs:111-113)
with its allocation made explicit: the source first resizes its Vec to the
declared `file_name_length` (`v.resize(file_name_length, 0)`, line 112) —
allocating that many bytes — and only then calls the bounded read, which
rejects lengths above 256.  The first component is the byte count the
resize allocates before the read runs. -/
def fileNameRead (file_name_length : Nat) (zs : List Nat) :
    Nat × Except EPubErr (List Nat × List Nat) :=
  (file_name_length, zreadBytes file_name_length zs)

/-- Embedding of `DataDescriptor::read` (src/container.rs:41-53). -/
def DataDescriptor.read (zs : List Nat) :
    Except EPubErr (DataDescriptor × List Nat) := do
  let (crc32, zs) ← zread4 zs
  let (compressed_size, zs) ← zread4 zs
  let (uncompressed_size, zs) ← zread4 zs
  .ok ({ crc32, compressed_size, uncompressed_size }, zs)

/-! ## Block reader (src/io.rs)

The double-buffered `BufReader` itself, embedded with explicit state.  The
underlying `fatfs::File` is modelled as a byte list plus a read position;
`File::read` deterministically fills as many buffer bytes as remain in the
file and advances the position (errors of the storage device are not
modelled, so the embedded reads never return `IOErr`). -/

/-- The underlying file handle: contents plus current position. -/
structure FileSt where
  data : List Nat
  pos : Nat
deriving DecidableEq, Repr

/-- Constant `BUFBLOCKSIZE` (src/io.rs:47). -/
def BUFBLOCKSIZE : Nat := 512

/-- Model of `file.read(buf)`: overwrite `buf[i]` with `data[pos + i]` for the
`min buf.length (data.length - pos)` bytes available, leaving the rest of
`buf` untouched. -/
def fillBuf (data : List Nat) : Nat → List Nat → List Nat
  | _, [] => []
  | pos, b :: rest =>
      (if pos < data.length then data.getD pos b else b) :: fillBuf data (pos + 1) rest

/-- The byte count `file.read(buf)` returns. -/
def fillCount (data : List Nat) (pos : Nat) (buf : List Nat) : Nat :=
  min buf.length (data.length - pos)

/-- Embedding of `BufReader` (src/io.rs:14-32): the two block buffers, the active block
index, the cursor, the `loaded` and `peek_rolled` flags, and the file. -/
structure BufReader where
  file : FileSt
  block0 : List Nat
  block1 : List Nat
  blockIdx : Nat
  cursor : Nat
  loaded : Bool
  peekRolled : Bool
deriving DecidableEq, Repr

namespace BufReader

/-- The active block, `self.blocks[self.block_idx]`. -/
def curBlock (s : BufReader) : List Nat :=
  if s.blockIdx = 0 then s.block0 else s.block1

/-- The inactive block, `self.blocks[self.block_idx ^ 1]`. -/
def othBlock (s : BufReader) : List Nat :=
  if s.blockIdx = 0 then s.block1 else s.block0

/-- Embedding of `BufReader::new` (src/io.rs:55-72): two zeroed blocks, nothing loaded.
Note the source performs no initial fill and returns `BufReader` rather
than `Result` (its callers in src/container.rs apply `?` to it). -/
def new (f : FileSt) : BufReader :=
  { file := f
    block0 := List.replicate BUFBLOCKSIZE 0
    block1 := List.replicate BUFBLOCKSIZE 0
    blockIdx := 0
    cursor := 0
    loaded := false
    peekRolled := false }

/-- Embedding of `BufReader::load_block` (src/io.rs:74-91): skip when a peek already
rolled over; otherwise fill the inactive block (block 0 when nothing was
loaded yet) from the file and return the fill count. -/
def load_block (s : BufReader) : BufReader × Nat :=
  if s.peekRolled then ({ s with peekRolled := false }, 0)
  else
    let tgt := if s.loaded then s.blockIdx ^^^ 1 else 0
    let buf := if tgt = 0 then s.block0 else s.block1
    let k := fillCount s.file.data s.file.pos buf
    let buf2 := fillBuf s.file.data s.file.pos buf
    ({ s with
        loaded := true
        file := ⟨s.file.data, s.file.pos + k⟩
        block0 := if tgt = 0 then buf2 else s.block0
        block1 := if tgt = 0 then s.block1 else buf2 }, k)

/-- Embedding of `BufReader::read1` (src/io.rs:93-106).  The fill count `load_block`
returns is discarded, exactly as in the source. -/
def read1 (s : BufReader) : Except EPubErr (Nat × BufReader) :=
  if s.cursor < BUFBLOCKSIZE then
    .ok (s.curBlock.getD s.cursor 0, { s with cursor := s.cursor + 1 })
  else
    let s1 := (load_block s).1
    let s2 := { s1 with blockIdx := s1.blockIdx ^^^ 1, cursor := 1 }
    .ok (s2.curBlock.getD 0 0, s2)

/-- Word assembly `LittleEndian::read_u32` of four block bytes given by `b`. -/
def leWord (b : Nat → Nat) : Nat :=
  b 0 + 256 * b 1 + 65536 * b 2 + 16777216 * b 3

/-- Embedding of `BufReader::roll_over_4` (src/io.rs:160-185): load the next block,
take the `j = BUFBLOCKSIZE - cursor` bytes left in the active block and
`4 - j` bytes of the newly loaded one; a real read flips the active block
and commits the cursor, a peek restores the block index and records
`peek_rolled`. -/
def roll_over_4 (s : BufReader) (peek : Bool) : Nat × BufReader :=
  let s1 := (load_block s).1
  let j := BUFBLOCKSIZE - s1.cursor
  let b : Nat → Nat := fun i =>
    if i < j then s1.curBlock.getD (s1.cursor + i) 0
    else s1.othBlock.getD (i - j) 0
  let v := leWord b
  if peek then (v, { s1 with peekRolled := true })
  else (v, { s1 with blockIdx := s1.blockIdx ^^^ 1, cursor := 4 - j })

/-- Embedding of `BufReader::read4` (src/io.rs:134-145). -/
def read4 (s : BufReader) : Except EPubErr (Nat × BufReader) :=
  if s.cursor + 4 ≤ BUFBLOCKSIZE then
    .ok (leWord (fun i => s.curBlock.getD (s.cursor + i) 0),
         { s with cursor := s.cursor + 4 })
  else .ok (s.roll_over_4 false)

/-- Embedding of `BufReader::peek4` (src/io.rs:147-157). -/
def peek4 (s : BufReader) : Except EPubErr (Nat × BufReader) :=
  if s.cursor + 4 ≤ BUFBLOCKSIZE then
    .ok (leWord (fun i => s.curBlock.getD (s.cursor + i) 0), s)
  else .ok (s.roll_over_4 true)

/-- Embedding of `BufReader::read` (src/io.rs:187-212): at most 256 bytes, else
`ReadTruncated` before anything is read from the file or copied. -/
def read (s : BufReader) (n : Nat) : Except EPubErr (List Nat × BufReader) :=
  if n > 256 then .error .ReadTruncated
  else if s.cursor + n < BUFBLOCKSIZE then
    .ok ((s.curBlock.drop s.cursor).take n, { s with cursor := s.cursor + n })
  else
    let s1 := (load_block s).1
    let j := BUFBLOCKSIZE - s1.cursor
    let v := s1.curBlock.drop s1.cursor ++ s1.othBlock.take (n - j)
    .ok (v, { s1 with blockIdx := s1.blockIdx ^^^ 1, cursor := n - j })

end BufReader

/-! ## Inflate pipeline (src/container.rs:152-215)

The decompressor core (`miniz_oxide::inflate::core::decompress`) is an
external collaborator; it is embedded as an oracle mapping (decompressor
state, input slice, flags) to (status, consumed input, produced output,
new state).  Output bytes only figure through their count, which is all
src/container.rs accumulates into `count`. -/

/-- Status `TINFLStatus` restricted to what `inflate` distinguishes. -/
inductive TStatus where
  | needsMoreInput : TStatus
  | hasMoreOutput : TStatus
  | finished : TStatus
  | failure : Nat → TStatus
deriving DecidableEq, Repr

/-- A decompressor behaviour: `oracle d slice flags =
(status, in_consumed, out_consumed, d')`. -/
def DOracle : Type := Nat → List Nat → Nat → TStatus × Nat × Nat × Nat

/-- The inner decompress loop (src/container.rs:176-206): feed
`input[in_start..]` to the core, add the produced bytes to `count`; on
`HasMoreOutput` advance `in_start` by the consumed bytes and call again,
on `NeedsMoreInput`/`Done` stop, on any other status fail with
`Decompress`.  `fuelLeft` bounds the loop (the source loops unboundedly;
an oracle answering `hasMoreOutput` forever diverges in the source). -/
def inflateInner (oracle : DOracle) :
    Nat → Nat → List Nat → Nat → Nat → Nat → Except EPubErr (Nat × Nat)
  | 0, _, _, _, _, _ => .error .fuel
  | fuelLeft + 1, d, input, flags, in_start, count =>
    match oracle d (input.drop in_start) flags with
    | (.needsMoreInput, _, out_consumed, d') => .ok (count + out_consumed, d')
    | (.finished, _, out_consumed, d') => .ok (count + out_consumed, d')
    | (.failure c, _, _, _) => .error (.Decompress c)
    | (.hasMoreOutput, in_consumed, out_consumed, d') =>
      inflateInner oracle fuelLeft d' input flags (in_start + in_consumed)
        (count + out_consumed)

/-- The outer chunk loop (src/container.rs:166-208): while `bytes_to_go`
of the declared compressed size remain, fetch a chunk of
`n = min 32768 bytes_to_go` compressed bytes (flag 1 = `HAS_MORE_INPUT`
when more follow), run the inner loop, and decrease `bytes_to_go` by `n`.
`fuelLeft` is only a structural-recursion bound; `bytes_to_go` itself
shrinks by `n ≥ 1` per iteration, so passing `fuelLeft = bytes_to_go`
never exhausts it. -/
def inflateOuter (oracle : DOracle) (innerFuel : Nat) :
    Nat → Nat → Nat → List Nat → Nat → Except EPubErr (Nat × List Nat)
  | _, 0, _, zs, count => .ok (count, zs)
  | 0, _ + 1, _, _, _ => .error .fuel
  | fuelLeft + 1, btg + 1, d, zs, count => do
    let nf : Nat × Nat := if btg + 1 > 32768 then (32768, 1) else (btg + 1, 0)
    let (input, zs') ← zreadChunk nf.1 zs
    let (count', d') ← inflateInner oracle innerFuel d input nf.2 0 count
    inflateOuter oracle innerFuel fuelLeft (btg + 1 - nf.1) d' zs' count'

/-- Embedding of `LocalFileHeader::inflate` (src/container.rs:152-215): `bytes_to_go`
starts at the declared compressed size, `count` at zero, the decompressor
freshly initialized. -/
def LocalFileHeader.inflate (h : LocalFileHeader) (oracle : DOracle)
    (innerFuel : Nat) (zs : List Nat) : Except EPubErr (Nat × List Nat) :=
  inflateOuter oracle innerFuel h.compressed_size h.compressed_size 0 zs 0

/-! ## Container expander (src/container.rs:294-365)

The target filesystem is tracked through the list of entries `expand`
creates; file contents and the `fentry.txt` manifest are not tracked. -/

/-- A created filesystem entry (name = the entry's raw filename bytes). -/
inductive FsEntry where
  | file : List Nat → FsEntry
  | dir : List Nat → FsEntry
deriving DecidableEq, Repr

/-- Constant `CENTRAL_DIR_FILE_HEADER` (src/container.rs:228). -/
def CENTRAL_DIR_FILE_HEADER : Nat := 0x02014b50

/-- The stored-entry copy loop (src/container.rs:331-339): consume the
declared uncompressed size in chunks of at most 256 bytes.  `fuelLeft` is
only a structural-recursion bound, never exhausted when it starts at
`bytes_to_go`. -/
def storedCopy : Nat → Nat → List Nat → Except EPubErr (List Nat)
  | _, 0, zs => .ok zs
  | 0, _ + 1, _ => .error .fuel
  | fuelLeft + 1, btg + 1, zs => do
    let n := if btg + 1 > 256 then 256 else btg + 1
    let (_, zs') ← zreadChunk n zs
    storedCopy fuelLeft (btg + 1 - n) zs'

/-- One entry of `Container::expand`'s loop after a local-file-header
signature was peeked (src/container.rs:318-353): parse the header; any
nonzero general-purpose flag without the data-descriptor bit is
`Unimplemented`; for supported compression methods create the file (and
inflate or copy its payload) or the directory; read the trailing data
descriptor when flagged. -/
def expandEntry (oracle : DOracle) (innerFuel : Nat) (zs : List Nat)
    (log : List FsEntry) : Except EPubErr (List Nat × List FsEntry) := do
  let (lfh, zs) ← LocalFileHeader.read zs
  if lfh.general_purpose_flag ≠ 0 ∧ lfh.have_data_descriptor = false then
    .error .Unimplemented
  else do
    let (zs, log) ←
      if lfh.compression_method = 0 ∨ lfh.compression_method = 8 then
        if lfh.is_file then do
          let log' := log ++ [.file lfh.file_name]
          if lfh.compression_method = 8 then do
            let (_, zs') ← lfh.inflate oracle innerFuel zs
            pure (zs', log')
          else do
            let zs' ← storedCopy lfh.uncompressed_size lfh.uncompressed_size zs
            pure (zs', log')
        else if lfh.is_dir then
          pure (zs, log ++ [.dir lfh.file_name])
        else pure (zs, log)
      else pure (zs, log)
    if lfh.have_data_descriptor then do
      let (_, zs') ← DataDescriptor.read zs
      pure (zs', log)
    else pure (zs, log)

/-- The scanning loop of `Container::expand` (src/container.rs:312-362):
peek a 4-byte signature; a local-file-header magic processes one entry and
resumes scanning, the central-directory marker ends the loop successfully,
anything else is a `FormatError`.  `fuelLeft` bounds the loop. -/
def expandLoop (oracle : DOracle) (innerFuel : Nat) :
    Nat → List Nat → List FsEntry → Except EPubErr (List FsEntry)
  | 0, _, _ => .error .fuel
  | fuelLeft + 1, zs, log => do
    let (signature, _) ← zpeek4 zs
    if LocalFileHeader.is_lfh signature then do
      let (zs', log') ← expandEntry oracle innerFuel zs log
      expandLoop oracle innerFuel fuelLeft zs' log'
    else if signature = CENTRAL_DIR_FILE_HEADER then .ok log
    else .error (.FormatError "unknown signature after local file header")

/-! ## Concrete instances used by witnesses and counterexamples -/

/-- A reader whose 512-byte file (every byte 7) has been fully consumed:
the front buffer holds the file's block, the cursor sits at its end, and
the file position is at true EOF. -/
def eofReader : BufReader :=
  ⟨⟨List.replicate 512 7, 512⟩, List.replicate 512 7,
    List.replicate 512 0, 0, 512, true, false⟩

/-- A two-byte file whose first byte is 0xAB. -/
def abFile : FileSt := ⟨[171, 205], 0⟩

/-- A serialized local file header whose filename-length field claims 5000
bytes, followed by that many payload bytes. -/
def c8stream : List Nat :=
  le4 LocalFileHeader.LOCALHEADERFILESIG ++ le2 20 ++ le2 0 ++ le2 0 ++
  le2 0 ++ le2 0 ++ le4 0 ++ le4 0 ++ le4 0 ++ le2 5000 ++ le2 0 ++
  List.replicate 5000 65

/-- A serialized local file header with declared extra-field length 3 but
a first extra record (id 0, payload length 0) occupying 4 bytes. -/
def c9stream : List Nat :=
  le4 LocalFileHeader.LOCALHEADERFILESIG ++ le2 20 ++ le2 0 ++ le2 0 ++
  le2 0 ++ le2 0 ++ le4 0 ++ le4 0 ++ le4 0 ++ le2 0 ++ le2 3 ++ [0, 0, 0, 0]

/-- A header declaring compressed size 1 and uncompressed size 0,
method 8 (deflate). -/
def tinyDeflateHdr : LocalFileHeader := ⟨20, 0, 8, 0, 0, 0, 1, 0, [97], none, none⟩

/-- A decompressor behaviour that consumes 1 input byte and reports 5
produced output bytes, then finishes — a behaviour the miniz interface
permits on corrupt streams. -/
def overOracle : DOracle := fun d _ _ => (.finished, 1, 5, d)

/-- A decompressor behaviour that finishes immediately without output. -/
def nullOracle : DOracle := fun d _ _ => (.finished, 0, 0, d)

/-- A header with general-purpose flag bit 3 (0x0008) set. -/
def gpfBit3Hdr : LocalFileHeader := ⟨20, 8, 0, 0, 0, 0, 0, 0, [], none, none⟩

/-- A header with general-purpose flag bit 4 (0x0010) set. -/
def gpfBit4Hdr : LocalFileHeader := ⟨20, 16, 0, 0, 0, 0, 0, 0, [], none, none⟩

/-- An archive: the bit-3 header followed by the central-directory
marker bytes. -/
def gpfBit3Zs : List Nat := serializeLFH gpfBit3Hdr ++ [80, 75, 1, 2]

/-- A header that is neither a file (compressed size 0) nor a directory
(uncompressed size 5, name not ending in `/`). -/
def skipHdr : LocalFileHeader := ⟨20, 0, 0, 0, 0, 0, 0, 5, [97], none, none⟩

/-- An archive: the neither-file-nor-directory header followed by the
central-directory marker bytes. -/
def skipZs : List Nat := serializeLFH skipHdr ++ [80, 75, 1, 2]

/-- A header like `skipHdr` but with general-purpose flag 0x0004 set (a
flag bit that is not the data-descriptor bit). -/
def flaggedSkipHdr : LocalFileHeader := ⟨20, 4, 0, 0, 0, 0, 0, 5, [97], none, none⟩

/-- An archive: the flagged neither-file-nor-directory header followed by
the central-directory marker bytes. -/
def flaggedSkipZs : List Nat := serializeLFH flaggedSkipHdr ++ [80, 75, 1, 2]

/-- A well-formed header with one extra-field record, for the round-trip
witness. -/
def rtHdr : LocalFileHeader :=
  ⟨20, 0, 8, 1, 2, 3, 4, 5, [97, 46, 116], some [⟨7, [9, 10]⟩], none⟩

/-! ## Stream lemmas -/

theorem zread2_le2 (n : Nat) (r : List Nat) (h : n < 65536) :
    zread2 (le2 n ++ r) = .ok (n, r) := by
  simp only [le2, List.cons_append, List.nil_append, zread2, Except.ok.injEq,
    Prod.mk.injEq, and_true]
  omega

theorem zread4_le4 (n : Nat) (r : List Nat) (h : n < 4294967296) :
    zread4 (le4 n ++ r) = .ok (n, r) := by
  simp only [le4, List.cons_append, List.nil_append, zread4, Except.ok.injEq,
    Prod.mk.injEq, and_true]
  omega

theorem zreadBytes_pre (l r : List Nat) (h : l.length ≤ 256) :
    zreadBytes l.length (l ++ r) = .ok (l, r) := by
  unfold zreadBytes
  rw [if_neg (by omega), if_neg (by rw [List.length_append]; omega),
    List.take_left, List.drop_left]

theorem readExtraLoop_zero (fuel : Nat) (zs : List Nat) (acc : List ExtraHeader) :
    readExtraLoop fuel 0 zs acc = .ok (acc, zs) := by
  cases fuel <;> rfl

theorem readExtraLoop_serialize (l : List ExtraHeader) :
    ∀ (fuel : Nat) (acc : List ExtraHeader) (r : List Nat),
    extrasLen l ≤ fuel →
    (∀ e ∈ l, e.id < 65536 ∧ e.data.length ≤ 256) →
    readExtraLoop fuel (extrasLen l) (serializeExtras l ++ r) acc = .ok (acc ++ l, r) := by
  induction l with
  | nil =>
    intro fuel acc r _ _
    simp [extrasLen, serializeExtras, readExtraLoop_zero]
  | cons e tl ih =>
    intro fuel acc r hfuel hwf
    have hid : e.id < 65536 := (hwf e (by simp)).1
    have hdl : e.data.length ≤ 256 := (hwf e (by simp)).2
    have hlen : extrasLen (e :: tl) = (3 + e.data.length + extrasLen tl) + 1 := by
      simp [extrasLen]; omega
    obtain ⟨f, rfl⟩ : ∃ f, fuel = f + 1 := by
      refine ⟨fuel - 1, ?_⟩; rw [hlen] at hfuel; omega
    rw [hlen]
    simp only [serializeExtras, serializeExtra, List.append_assoc]
    simp only [readExtraLoop]
    rw [zread2_le2 _ _ hid]
    simp only [bind, Except.bind]
    rw [zread2_le2 _ _ (by omega)]
    simp only [bind, Except.bind]
    rw [zreadBytes_pre _ _ hdl]
    simp only [bind, Except.bind]
    rw [if_neg (by omega)]
    have harg : (3 + e.data.length + extrasLen tl) + 1 - (e.data.length + 4)
        = extrasLen tl := by omega
    rw [harg, ih f (acc ++ [e]) r (by rw [hlen] at hfuel; omega)
      (fun e' he' => hwf e' (by simp [he']))]
    simp

/-- C2: for every well-formed `LocalFileHeader` value, parsing its
serialization (30-byte little-endian fixed prefix with signature
0x04034b50, filename bytes, extra-field records `[id:2][len:2][payload]`
summing exactly to the declared extra-field length) with
`LocalFileHeader::read` succeeds and returns the header unchanged, leaving
exactly the trailing bytes `r` unread. -/
theorem c2_header_roundtrip (h : LocalFileHeader) (r : List Nat) (hw : wfLFH h) :
    LocalFileHeader.read (serializeLFH h ++ r) = .ok (h, r) := by
  obtain ⟨ev, gpf, cm, tm, dt, crc, cs, us, name, ef, dd⟩ := h
  obtain ⟨h1, h2, h3, h4, h5, h6, h7, h8, h9, h10, h11, h12, h13⟩ := hw
  simp only at h1 h2 h3 h4 h5 h6 h7 h8 h9 h10 h11 h12 h13
  subst h13
  simp only [serializeLFH, List.append_assoc]
  unfold LocalFileHeader.read
  rw [zread4_le4 _ _ (by norm_num [LocalFileHeader.LOCALHEADERFILESIG])]
  simp only [bind, Except.bind, ne_eq, not_true_eq_false, if_false, ite_false]
  simp only [zread2_le2 _ _ h1]
  simp only [zread2_le2 _ _ h2]
  simp only [zread2_le2 _ _ h3]
  simp only [zread2_le2 _ _ h4]
  simp only [zread2_le2 _ _ h5]
  simp only [zread4_le4 _ _ h6]
  simp only [zread4_le4 _ _ h7]
  simp only [zread4_le4 _ _ h8]
  simp only [zread2_le2 name.length _ (by omega)]
  simp only [zread2_le2 _ _ h11]
  simp only [zreadBytes_pre _ _ h10]
  simp only [h9, if_true, ite_true]
  cases ef with
  | none =>
    simp only [extraFieldLen, gt_iff_lt, lt_irrefl, if_false, ite_false,
      pure, Except.pure, bind, Except.bind, List.nil_append]
  | some l =>
    have hne : l ≠ [] := by
      intro hl
      simp [extraRecordsOk, hl] at h12
    have hwf' : ∀ e ∈ l, e.id < 65536 ∧ e.data.length ≤ 256 := by
      intro e he
      simp only [extraRecordsOk, Bool.and_eq_true, List.all_eq_true] at h12
      have := h12.2 e he
      simp only [Bool.and_eq_true, decide_eq_true_eq] at this
      exact this
    have hpos : 0 < extraFieldLen (some l) := by
      cases l with
      | nil => exact absurd rfl hne
      | cons a tl => simp [extraFieldLen, extrasLen]
    simp only [extraFieldLen] at h11 hpos ⊢
    rw [if_pos hpos]
    rw [readExtraLoop_serialize l (extrasLen l) [] r (le_refl _) hwf']
    simp only [bind, Except.bind, List.nil_append, pure, Except.pure]

theorem load_block_cursor (s : BufReader) :
    ((BufReader.load_block s).1).cursor = s.cursor := by
  unfold BufReader.load_block
  split <;> rfl

theorem load_block_peekRolled (s : BufReader) :
    ((BufReader.load_block s).1).peekRolled = false := by
  unfold BufReader.load_block
  split
  · rfl
  · rename_i h
    simpa using h

theorem load_block_of_peekRolled (s : BufReader) (h : s.peekRolled = true) :
    BufReader.load_block s = ({ s with peekRolled := false }, 0) := by
  unfold BufReader.load_block
  rw [if_pos h]

theorem update_update_pr (t : BufReader) (h : t.peekRolled = false) :
    ({ { t with peekRolled := true } with peekRolled := false } : BufReader) = t := by
  cases t
  simp_all

theorem load_block_after_peek (s : BufReader) :
    BufReader.load_block { (BufReader.load_block s).1 with peekRolled := true }
      = ((BufReader.load_block s).1, 0) := by
  rw [load_block_of_peekRolled _ rfl, update_update_pr _ (load_block_peekRolled s)]

theorem roll_over_4_peek_snd (s : BufReader) :
    (BufReader.roll_over_4 s true).2
      = { (BufReader.load_block s).1 with peekRolled := true } := rfl

theorem roll_over_4_fst (s : BufReader) :
    (BufReader.roll_over_4 s true).1 = (BufReader.roll_over_4 s false).1 := rfl

theorem roll_over_4_peek_then_read (s : BufReader) :
    BufReader.roll_over_4 ((BufReader.roll_over_4 s true).2) false
      = BufReader.roll_over_4 s false := by
  rw [roll_over_4_peek_snd]
  unfold BufReader.roll_over_4
  simp only [load_block_after_peek]

/-- C1: for every reader state, `peek4` followed by `read4` returns the
same value twice and leaves the reader (cursor, active block index, both
buffers, `peek_rolled` flag, file position) in exactly the state a single
`read4` from the initial state produces — both within a block and across
the 512-byte block boundary (the `¬ cursor + 4 ≤ 512` case). -/
theorem c1_peek_transparent (s : BufReader) (v : Nat) (s₁ : BufReader)
    (hp : BufReader.peek4 s = .ok (v, s₁)) :
    ∃ s₂, BufReader.read4 s₁ = .ok (v, s₂) ∧ BufReader.read4 s = .ok (v, s₂) := by
  by_cases hc : s.cursor + 4 ≤ BUFBLOCKSIZE
  · unfold BufReader.peek4 at hp
    rw [if_pos hc] at hp
    injection hp with hp
    injection hp with hv hs
    subst hv
    subst hs
    exact ⟨_, by unfold BufReader.read4; rw [if_pos hc],
      by unfold BufReader.read4; rw [if_pos hc]⟩
  · unfold BufReader.peek4 at hp
    rw [if_neg hc] at hp
    injection hp with hp
    have hv : v = (BufReader.roll_over_4 s true).1 := by rw [hp]
    have hs : s₁ = (BufReader.roll_over_4 s true).2 := by rw [hp]
    have hcur : s₁.cursor = s.cursor := by
      rw [hs, roll_over_4_peek_snd]
      exact load_block_cursor s
    have hc1 : ¬ (s₁.cursor + 4 ≤ BUFBLOCKSIZE) := by rw [hcur]; exact hc
    refine ⟨(BufReader.roll_over_4 s false).2, ?_, ?_⟩
    · unfold BufReader.read4
      rw [if_neg hc1, hs, roll_over_4_peek_then_read, hv, roll_over_4_fst]
    · unfold BufReader.read4
      rw [if_neg hc, hv, roll_over_4_fst]


theorem c2_header_roundtrip_witness :
    wfLFH rtHdr ∧ LocalFileHeader.read (serializeLFH rtHdr ++ [5]) = .ok (rtHdr, [5]) :=
  ⟨by decide, c2_header_roundtrip rtHdr [5] (by decide)⟩

set_option maxHeartbeats 1000000 in
/-- C3 (evaluation of the code at the failing input): with the file fully
consumed (position = file length), `read1` performs a zero-byte fill,
flips to the never-filled back buffer and returns `Ok 0` — a byte that was
never read from the file (whose bytes are all 7) — instead of failing with
a truncated/short-read error; nothing records the true buffer length. -/
theorem c3_short_fill_not_recorded :
    BufReader.read1 eofReader =
      .ok (0, { eofReader with blockIdx := 1, cursor := 1 }) ∧
    eofReader.file.pos = eofReader.file.data.length := by decide

set_option maxHeartbeats 1000000 in
/-- C7 (evaluation of the code at the failing input): `BufReader::new`
performs no initial fill (and returns no `Result`), so the very first
`read1` after construction returns 0 from the zeroed, never-filled buffer
even though the file's first byte is 0xAB; the file position stays 0. -/
theorem c7_new_not_primed :
    BufReader.read1 (BufReader.new abFile) =
      .ok (0, { BufReader.new abFile with cursor := 1 }) ∧
    abFile.data.head? = some 171 := by decide

/-- C8 (counterexample to the claim as stated): the parser's filename step
allocates the declared 5000 bytes — the `v.resize(file_name_length, 0)` at
src/container.rs:112 runs first — and only then does the bounded read fail
with `ReadTruncated`; the failure is therefore not "before attempting to
read or allocate that many bytes". -/
theorem c8_alloc_counterexample :
    (fileNameRead 5000 (List.replicate 5000 65)).1 = 5000 ∧
    (fileNameRead 5000 (List.replicate 5000 65)).2 = .error .ReadTruncated := by
  decide

/-- C8 (amended): a requested length above 256 makes `BufReader::read`
fail with `ReadTruncated` before touching the file or copying anything,
and a local file header whose filename-length field claims 5000 bytes
makes `LocalFileHeader::read` fail with `ReadTruncated` before reading the
filename bytes — though the parser's Vec resize has already allocated the
declared length by then (see the counterexample). -/
theorem c8_bounded_read (s : BufReader) (n : Nat) (hn : n > 256) :
    BufReader.read s n = .error .ReadTruncated ∧
    LocalFileHeader.read c8stream = .error .ReadTruncated := by
  constructor
  · unfold BufReader.read
    rw [if_pos hn]
  · decide

theorem c8_bounded_read_witness :
    BufReader.read (BufReader.new abFile) 300 = .error .ReadTruncated ∧
    LocalFileHeader.read c8stream = .error .ReadTruncated :=
  c8_bounded_read (BufReader.new abFile) 300 (by decide)

/-- C9 (evaluation of the code at the failing input): when the extra-field
records do not sum to the declared extra-field length (declared 3, first
record occupies 4 bytes), the parser's unguarded `data_left -= data_len + 4`
underflows (a panic in debug builds, a wrap in release builds) — no
corrupt-header error is signalled. -/
theorem c9_extra_underflow :
    LocalFileHeader.read c9stream = .error .underflow := by decide

/-- C6 (evaluation of the code at the failing input): the source tests
`1 << 4` (0x0010), so `have_data_descriptor` is false on a header with
bit 3 (0x0008) set and true on one with bit 4 set; consequently the
expander rejects a bit-3 entry as `Unimplemented` instead of reading its
trailing data descriptor. -/
theorem c6_descriptor_bit :
    LocalFileHeader.have_data_descriptor gpfBit3Hdr = false ∧
    LocalFileHeader.have_data_descriptor gpfBit4Hdr = true ∧
    expandLoop nullOracle 1 5 gpfBit3Zs [] = .error .Unimplemented := by decide

theorem c1_peek_transparent_witness :
    ∃ s₂, BufReader.read4 (BufReader.new ⟨[1, 2, 3], 0⟩) = .ok (0, s₂) ∧
      BufReader.read4 (BufReader.new ⟨[1, 2, 3], 0⟩) = .ok (0, s₂) :=
  c1_peek_transparent (BufReader.new ⟨[1, 2, 3], 0⟩) 0
    (BufReader.new ⟨[1, 2, 3], 0⟩) (by decide)

theorem inflateOuter_consumes (oracle : DOracle) (innerFuel : Nat) :
    ∀ (fuel btg d : Nat) (zs : List Nat) (count cnt : Nat) (zs' : List Nat),
    inflateOuter oracle innerFuel fuel btg d zs count = .ok (cnt, zs') →
    zs' = zs.drop btg := by
  intro fuel
  induction fuel with
  | zero =>
    intro btg d zs count cnt zs' hok
    cases btg with
    | zero =>
      simp only [inflateOuter, Except.ok.injEq, Prod.mk.injEq] at hok
      rw [← hok.2, List.drop_zero]
    | succ b => simp [inflateOuter] at hok
  | succ f ih =>
    intro btg d zs count cnt zs' hok
    cases btg with
    | zero =>
      simp only [inflateOuter, Except.ok.injEq, Prod.mk.injEq] at hok
      rw [← hok.2, List.drop_zero]
    | succ b =>
      unfold inflateOuter at hok
      simp only [bind, Except.bind] at hok
      by_cases hb : b + 1 > 32768
      · rw [if_pos hb] at hok
        unfold zreadChunk at hok
        by_cases hlen : zs.length < 32768
        · rw [if_pos hlen] at hok
          simp at hok
        · rw [if_neg hlen] at hok
          simp only at hok
          cases hi : inflateInner oracle innerFuel d (zs.take 32768) 1 0 count with
          | error e => rw [hi] at hok; simp at hok
          | ok p =>
            rw [hi] at hok
            simp only at hok
            have hz := ih (b + 1 - 32768) p.2 (zs.drop 32768) p.1 cnt zs' hok
            have harr : 32768 + (b + 1 - 32768) = b + 1 := by omega
            rw [hz, List.drop_drop, harr]
      · rw [if_neg hb] at hok
        unfold zreadChunk at hok
        by_cases hlen : zs.length < b + 1
        · rw [if_pos hlen] at hok
          simp at hok
        · rw [if_neg hlen] at hok
          simp only at hok
          cases hi : inflateInner oracle innerFuel d (zs.take (b + 1)) 0 0 count with
          | error e => rw [hi] at hok; simp at hok
          | ok p =>
            rw [hi] at hok
            simp only at hok
            have hz := ih (b + 1 - (b + 1)) p.2 (zs.drop (b + 1)) p.1 cnt zs' hok
            have harr : b + 1 + (b + 1 - (b + 1)) = b + 1 := by omega
            rw [hz, List.drop_drop, harr]

theorem read_ok_peek (zs zs1 : List Nat) (lfh : LocalFileHeader)
    (h : LocalFileHeader.read zs = .ok (lfh, zs1)) :
    zpeek4 zs = .ok (LocalFileHeader.LOCALHEADERFILESIG, zs) := by
  unfold LocalFileHeader.read at h
  cases hz : zread4 zs with
  | error e => rw [hz] at h; simp [bind, Except.bind] at h
  | ok p =>
    obtain ⟨sig, rest⟩ := p
    rw [hz] at h
    simp only [bind, Except.bind] at h
    by_cases hs : sig = LocalFileHeader.LOCALHEADERFILESIG
    · unfold zpeek4
      rw [hz, hs]
    · rw [if_pos hs] at h
      simp at h

theorem expandLoop_succ (oracle : DOracle) (innerFuel fuel : Nat)
    (zs : List Nat) (log : List FsEntry) :
    expandLoop oracle innerFuel (fuel + 1) zs log = (do
      let (signature, _) ← zpeek4 zs
      if LocalFileHeader.is_lfh signature then do
        let (zs', log') ← expandEntry oracle innerFuel zs log
        expandLoop oracle innerFuel fuel zs' log'
      else if signature = CENTRAL_DIR_FILE_HEADER then .ok log
      else .error (.FormatError "unknown signature after local file header")) := rfl

/-- C4: in `Container::expand`'s scanning loop, whenever the peeked 4-byte
signature is the central-directory marker 0x02014b50 the loop terminates
with `Ok`; whenever it is the local-file-header magic 0x04034b50 the entry
is parsed and processed and scanning resumes on the rest of the stream;
and any other signature value fails with `FormatError`. -/
theorem c4_expand_dispatch (oracle : DOracle) (innerFuel fuel : Nat)
    (zs : List Nat) (log : List FsEntry) (sig : Nat)
    (hpk : zpeek4 zs = .ok (sig, zs)) :
    (sig = CENTRAL_DIR_FILE_HEADER →
      expandLoop oracle innerFuel (fuel + 1) zs log = .ok log) ∧
    (∀ zs' log', LocalFileHeader.is_lfh sig = true →
      expandEntry oracle innerFuel zs log = .ok (zs', log') →
      expandLoop oracle innerFuel (fuel + 1) zs log =
        expandLoop oracle innerFuel fuel zs' log') ∧
    (LocalFileHeader.is_lfh sig = false → sig ≠ CENTRAL_DIR_FILE_HEADER →
      expandLoop oracle innerFuel (fuel + 1) zs log =
        .error (.FormatError "unknown signature after local file header")) := by
  refine ⟨?_, ?_, ?_⟩
  · intro hcd
    rw [expandLoop_succ, hpk]
    simp only [bind, Except.bind]
    subst hcd
    simp [LocalFileHeader.is_lfh, CENTRAL_DIR_FILE_HEADER,
      LocalFileHeader.LOCALHEADERFILESIG]
  · intro zs' log' hlfh hent
    rw [expandLoop_succ, hpk]
    simp only [bind, Except.bind, hlfh, if_true, ite_true, hent]
  · intro hlfh hcd
    rw [expandLoop_succ, hpk]
    simp only [bind, Except.bind, hlfh]
    rw [if_neg (by simp), if_neg hcd]

/-- C10: no header is both a file and a directory, and an entry with a
supported compression method that is neither (here with no general-purpose
flags set, so the support check and the data-descriptor read do not
interfere) creates no file and no directory — the log is unchanged — and
scanning resumes on the rest of the stream without an error. -/
theorem c10_classification (oracle : DOracle) (innerFuel fuel : Nat)
    (zs zs1 : List Nat) (log : List FsEntry) (lfh : LocalFileHeader) :
    (∀ hh : LocalFileHeader, ¬(hh.is_file = true ∧ hh.is_dir = true)) ∧
    (LocalFileHeader.read zs = .ok (lfh, zs1) →
     lfh.general_purpose_flag = 0 →
     (lfh.compression_method = 0 ∨ lfh.compression_method = 8) →
     lfh.is_file = false → lfh.is_dir = false →
     expandLoop oracle innerFuel (fuel + 1) zs log =
       expandLoop oracle innerFuel fuel zs1 log) := by
  constructor
  · rintro hh ⟨hf, hd⟩
    unfold LocalFileHeader.is_file at hf
    unfold LocalFileHeader.is_dir at hd
    simp only [Bool.and_eq_true, decide_eq_true_eq] at hf hd
    omega
  · intro hread hgpf hcm hnf hnd
    have hdd : lfh.have_data_descriptor = false := by
      unfold LocalFileHeader.have_data_descriptor
      rw [hgpf]
      decide
    have hpk := read_ok_peek zs zs1 lfh hread
    rw [expandLoop_succ, hpk]
    simp only [bind, Except.bind]
    rw [if_pos (by simp [LocalFileHeader.is_lfh])]
    unfold expandEntry
    rw [hread]
    simp only [bind, Except.bind]
    rw [if_neg (by simp [hgpf])]
    rw [if_pos hcm]
    simp only [hnf, hnd, hdd, if_false, ite_false, Bool.false_eq_true,
      pure, Except.pure]

theorem c4_expand_dispatch_witness :
    expandLoop nullOracle 1 (0 + 1) [80, 75, 1, 2] [] = .ok [] ∧
    expandLoop nullOracle 1 (0 + 1) skipZs [] = expandLoop nullOracle 1 0 [80, 75, 1, 2] [] ∧
    expandLoop nullOracle 1 (0 + 1) [0, 0, 0, 0] [] =
      .error (.FormatError "unknown signature after local file header") :=
  ⟨(c4_expand_dispatch nullOracle 1 0 [80, 75, 1, 2] [] 0x02014b50 (by decide)).1 rfl,
   (c4_expand_dispatch nullOracle 1 0 skipZs [] 0x04034b50
      (by decide)).2.1 [80, 75, 1, 2] [] (by decide) (by decide),
   (c4_expand_dispatch nullOracle 1 0 [0, 0, 0, 0] [] 0
      (by decide)).2.2 (by decide) (by decide)⟩

/-- C10 (counterexample to the claim as stated): a parsed header with
supported compression method 0 that is neither a file nor a directory but
carries a non-data-descriptor general-purpose flag (0x0004) makes `expand`
fail with `Unimplemented` rather than continue to the next entry. -/
theorem c10_flagged_counterexample :
    expandLoop nullOracle 1 5 flaggedSkipZs [] = .error .Unimplemented ∧
    LocalFileHeader.is_file flaggedSkipHdr = false ∧
    LocalFileHeader.is_dir flaggedSkipHdr = false ∧
    flaggedSkipHdr.compression_method = 0 := by decide

theorem c10_classification_witness :
    ¬(LocalFileHeader.is_file skipHdr = true ∧ LocalFileHeader.is_dir skipHdr = true) ∧
    expandLoop nullOracle 1 (1 + 1) skipZs [] = expandLoop nullOracle 1 1 [80, 75, 1, 2] [] :=
  ⟨(c10_classification nullOracle 1 1 skipZs [80, 75, 1, 2] [] skipHdr).1 skipHdr,
   (c10_classification nullOracle 1 1 skipZs [80, 75, 1, 2] [] skipHdr).2
     (by decide) (by decide) (Or.inl (by decide)) (by decide) (by decide)⟩

/-- C5 (counterexample to the claim as stated): a decompressor behaviour
the miniz interface permits makes `inflate` complete normally with a total
output count of 5 although the header declares uncompressed size 0 — the
declared uncompressed size bounds nothing; the loop's budget is the
compressed size (1, fully consumed). -/
theorem c5_budget_counterexample :
    LocalFileHeader.inflate tinyDeflateHdr overOracle 10 [7, 8, 9] = .ok (5, [8, 9]) ∧
    tinyDeflateHdr.uncompressed_size < 5 := by decide

/-- C5 (amended): the loop's termination budget is the declared
*compressed* size: on normal completion `inflate` has consumed exactly
`compressed_size` bytes from the reader; the output total is the sum of
the decompressor's produced byte counts and is not bounded by the declared
uncompressed size. -/
theorem c5_inflate_consumes_compressed (oracle : DOracle) (innerFuel : Nat)
    (h : LocalFileHeader) (zs zs' : List Nat) (cnt : Nat)
    (hok : LocalFileHeader.inflate h oracle innerFuel zs = .ok (cnt, zs')) :
    zs' = zs.drop h.compressed_size := by
  unfold LocalFileHeader.inflate at hok
  exact inflateOuter_consumes oracle innerFuel h.compressed_size
    h.compressed_size 0 zs 0 cnt zs' hok

theorem c5_inflate_consumes_compressed_witness :
    ([8, 9] : List Nat) = [7, 8, 9].drop tinyDeflateHdr.compressed_size :=
  c5_inflate_consumes_compressed overOracle 10 tinyDeflateHdr [7, 8, 9] [8, 9] 5 (by decide)

end Epub
